import Mathlib

/-!
Verification of the reconciliation core of a vehicle-market ETL pipeline
(danawa sales / naver-google interest loaders).  Python source functions are
shallowly embedded as executable Lean definitions; theorems check the
natural-language specification against them.
-/

set_option linter.unusedVariables false

namespace DanawaETL

/-! Basic helpers modelling Python string primitives.  Cells are `List Char`
(one Python `str`), wrapped into `String` at the boundaries where convenient. -/

/-- Python str.strip: drop whitespace from both ends. -/
def stripChars (s : List Char) : List Char :=
  ((s.dropWhile Char.isWhitespace).reverse.dropWhile Char.isWhitespace).reverse

/-- Helper for splitWs: the first argument is the rest of the string, the second
the (reversed) current piece. -/
def splitWsAux : List Char → List Char → List (List Char)
  | [], cur => if cur = [] then [] else [cur.reverse]
  | c :: cs, cur =>
    if c.isWhitespace then
      if cur = [] then splitWsAux cs [] else cur.reverse :: splitWsAux cs []
    else splitWsAux cs (c :: cur)

/-- Python str.split with no argument: split on runs of whitespace, no empty pieces. -/
def splitWs (l : List Char) : List (List Char) :=
  splitWsAux l []

/-- Helper for digitRuns: the second argument is the (reversed) current run. -/
def digitRunsAux : List Char → List Char → List (List Char)
  | [], cur => if cur = [] then [] else [cur.reverse]
  | c :: cs, cur =>
    if c.isDigit then digitRunsAux cs (c :: cur)
    else if cur = [] then digitRunsAux cs [] else cur.reverse :: digitRunsAux cs []

/-- Maximal runs of decimal digits in a string, in order: Python
re.findall of a digit-run pattern. -/
def digitRuns (l : List Char) : List (List Char) :=
  digitRunsAux l []

/-- Numeric value of a string of decimal digits. -/
def natOfDigits (ds : List Char) : Nat :=
  ds.foldl (fun acc c => acc * 10 + (c.toNat - '0'.toNat)) 0

/-- Python s.replace of a one-character needle by the empty string. -/
def removeChar (needle : Char) (s : List Char) : List Char :=
  s.filter (fun c => ¬ c = needle)

/-- Python "".join(re.findall(digit-run, s.replace(",", ""))): the
concatenation of all digit runs after removing commas. -/
def findallDigitsJoined (s : List Char) : List Char :=
  (digitRuns (removeChar ',' s)).flatten

/-! Embedding of src/etl/sales/danawa_normalizer.py. -/

/-- Source parse_int_from_str: strip, reject empty, join all digit runs after
removing commas, reject when no digit, else the denoted integer. -/
def parse_int_from_str (s : Option (List Char)) : Option Nat :=
  match s with
  | none => none
  | some s0 =>
    let t := stripChars s0
    if t = [] then none
    else
      let ds := findallDigitsJoined t
      if ds = [] then none else some (natOfDigits ds)

/-- Source parse_change_field, the branch acting on the chosen delta token:
sign from the down glyph, magnitude from the joined digit runs. -/
def deltaOfToken (t : List Char) : Option Int :=
  let sign : Int := if '▼' ∈ t then -1 else 1
  let ds := findallDigitsJoined t
  if ds = [] then none else some (sign * natOfDigits ds)

/-- Source parse_change_field: empty or "-" is None; else split on whitespace,
take the second token when there are at least two and the only token otherwise,
and parse the delta out of it. -/
def parse_change_field (s : List Char) : Option Int :=
  if s = [] then none
  else
    let t := stripChars s
    if t = [] ∨ t = ['-'] then none
    else
      let parts := splitWs t
      let diff := if parts.length = 1 then parts.headI else parts.getD 1 []
      deltaOfToken diff

/-- Python int(): optional sign, then only digits; anything else raises ValueError. -/
def pyInt (s : List Char) : Option Int :=
  let t := stripChars s
  match t with
  | '-' :: ds =>
    if ds ≠ [] ∧ ds.all Char.isDigit then some (-(natOfDigits ds : Int)) else none
  | '+' :: ds =>
    if ds ≠ [] ∧ ds.all Char.isDigit then some ((natOfDigits ds : Int)) else none
  | ds =>
    if ds ≠ [] ∧ ds.all Char.isDigit then some ((natOfDigits ds : Int)) else none

/-- Python float() restricted to plain decimal literals (the only shapes the
pipeline feeds it); values are represented exactly as rationals. -/
def pyFloat (s : List Char) : Option ℚ :=
  let t := stripChars s
  let sign : ℚ := if t.headI = '-' then -1 else 1
  let u := if t.headI = '-' ∨ t.headI = '+' then t.tail else t
  let ip := u.takeWhile Char.isDigit
  let rest := u.dropWhile Char.isDigit
  match rest with
  | [] => if ip = [] then none else some (sign * (natOfDigits ip : ℚ))
  | '.' :: fr =>
    if fr ≠ [] ∧ fr.all Char.isDigit then
      some (sign * ((natOfDigits ip : ℚ) + (natOfDigits fr : ℚ) / (10 : ℚ) ^ fr.length))
    else none
  | _ => none

/-- The body of a decimal-number regex match starting at a digit: the integer
digits, and a fractional part when a dot with at least one digit follows. -/
def decimalBody (l : List Char) : List Char :=
  let ip := l.takeWhile Char.isDigit
  let rest := l.dropWhile Char.isDigit
  match rest with
  | '.' :: fr =>
    if fr.takeWhile Char.isDigit ≠ [] then ip ++ '.' :: fr.takeWhile Char.isDigit else ip
  | _ => ip

/-- Try to match an optionally-negated decimal number at the head of the string. -/
def matchDecimalAt : List Char → Option (List Char)
  | [] => none
  | c :: cs =>
    if c = '-' then
      match cs with
      | d :: _ => if d.isDigit then some ('-' :: decimalBody cs) else none
      | [] => none
    else if c.isDigit then some (decimalBody (c :: cs)) else none

/-- Python re.search for the first optionally-negated decimal number: try each
position from the left. -/
def searchDecimal : List Char → Option (List Char)
  | [] => none
  | c :: cs =>
    match matchDecimalAt (c :: cs) with
    | some m => some m
    | none => searchDecimal cs

/-- One fully normalized row as produced by source normalize_row, with the
parsed numeric payloads (the source prints them back to text cells). -/
structure NormOut where
  rank : List Char
  model_name : List Char
  sales_units : Nat
  share_ratio : List Char
  mom_diff : Option Int
  yoy_diff : Option Int
deriving DecidableEq

/-- Source normalize_row: strip every cell, map the two accepted shapes
(at least 7 cells with a blank filler column, or exactly-6-shaped rows) onto
rank/model/sales/share/mom/yoy, reject shorter rows, reject blank rank or
model name, reject an unparsable volume. -/
def normalize_row (raw : List (List Char)) : Option NormOut :=
  if raw = [] then none
  else
    let row := raw.map stripChars
    let sel : Option (List Char × List Char × List Char × List Char × List Char × List Char) :=
      if row.length ≥ 7 then
        some (row.getD 0 [], row.getD 2 [], row.getD 3 [], row.getD 4 [], row.getD 5 [], row.getD 6 [])
      else if row.length ≥ 6 then
        some (row.getD 0 [], row.getD 1 [], row.getD 2 [], row.getD 3 [], row.getD 4 [], row.getD 5 [])
      else none
    match sel with
    | none => none
    | some (rank, model_name, sales_str, share_str, mom_str, yoy_str) =>
      if rank = [] ∨ model_name = [] then none
      else
        match parse_int_from_str (some sales_str) with
        | none => none
        | some sales_units =>
          let share_ratio := (searchDecimal (removeChar ',' share_str)).getD []
          some { rank := rank, model_name := model_name, sales_units := sales_units,
                 share_ratio := share_ratio,
                 mom_diff := parse_change_field mom_str,
                 yoy_diff := parse_change_field yoy_str }

/-- The row loop of source normalize_folder: rejected rows simply disappear
from the output file (no rejection counter exists in the source). -/
def normalizeRows (raws : List (List (List Char))) : List NormOut :=
  raws.filterMap normalize_row

/-- Volume parsing as the spec words it: the integer denoted by the leading
(first) run of digits after separator removal, None when there is no digit.
Stated from the spec for comparison with the source parse_int_from_str. -/
def specLeadingRunValue (s : List Char) : Option Nat :=
  let t := stripChars s
  let run := ((removeChar ',' t).dropWhile (fun c => ¬ c.isDigit)).takeWhile Char.isDigit
  if run = [] then none else some (natOfDigits run)

/-! Embedding of the car_model registry shared by the loaders
(src/etl/sales/load_car_model_from_candidates.py and
src/etl/sales/load_danawa_meta_to_db.py). -/

/-- One row of the car_model table. -/
structure Entity where
  model_id : Nat
  brand_name : String
  model_name_kr : String
  danawa_model_id : Option Int
  danawa_model_url : Option String
deriving DecidableEq

/-- SELECT ... WHERE brand_name = :b AND model_name_kr = :n, fetchone. -/
def resolveModel (rows : List Entity) (b n : String) : Option Entity :=
  rows.find? (fun e => e.brand_name == b && e.model_name_kr == n)

/-! Embedding of src/etl/sales/load_danawa_sales_to_db.py. -/

/-- One parsed sales row (dataclass SalesRow of the loader). -/
structure SalesRow where
  brand_code : String
  month : String
  rank : Nat
  model_name : String
  sales_units : Nat
  share_ratio : Option ℚ
deriving DecidableEq

/-- Source parse_share_ratio: first decimal number in the cell after comma
removal, divided by 100. -/
def parse_share_ratio (s : List Char) : Option ℚ :=
  if s = [] then none
  else
    match searchDecimal (removeChar ',' s) with
    | none => none
    | some m =>
      match pyFloat m with
      | none => none
      | some v => some (v / 100)

/-- The four cells of one row of a normalized sales CSV that the loader reads. -/
structure CsvSalesCells where
  rank : String
  model_name : String
  sales : String
  share : String
deriving DecidableEq

/-- The per-row body of source load_normalized_sales_csv: skip blank model
names, skip rows whose volume does not parse, default the rank to 0. -/
def rowToSalesRow (brand_code month : String) (r : CsvSalesCells) : Option SalesRow :=
  let rank_str := stripChars r.rank.data
  let model_name := (stripChars r.model_name.data).asString
  let sales_str := stripChars r.sales.data
  let share_str := stripChars r.share.data
  if model_name = "" then none
  else
    match parse_int_from_str (some sales_str) with
    | none => none
    | some su =>
      some { brand_code := brand_code, month := month,
             rank := (parse_int_from_str (some rank_str)).getD 0,
             model_name := model_name, sales_units := su,
             share_ratio := parse_share_ratio share_str }

/-- Source load_normalized_sales_csv over the data rows of one file. -/
def load_normalized_sales_csv (brand_code month : String) (rows : List CsvSalesCells) :
    List SalesRow :=
  rows.filterMap (rowToSalesRow brand_code month)

/-- The total_units_by_month accumulation of source process_sales_for_brand,
read back at one month. -/
def totalUnitsByMonth (rows : List SalesRow) (m : String) : Nat :=
  rows.foldl (fun acc sr => if sr.month = m then acc + sr.sales_units else acc) 0

/-- One row of the model_monthly_sales fact table as written by the loaders. -/
structure SalesFact where
  model_id : Nat
  month : String
  sales_units : Int
  market_total_units : Option Nat
  adoption_rate : Option ℚ
  source : String
deriving DecidableEq

/-- The run statistics kept by source process_sales_for_brand. -/
structure SalesStats where
  total_rows : Nat
  no_model_match : Nat
  insert_or_update : Nat
deriving DecidableEq

/-- The per-row body of source process_sales_for_brand: resolve the model,
compute the batch total and the adoption rate, and build the row upserted into
model_monthly_sales (its stored market_total_units is the Python value
market_total_units or None, so a zero total is stored as NULL). -/
def factForRow (registry : List Entity) (brandMap : String → String)
    (rows : List SalesRow) (sr : SalesRow) : Option SalesFact :=
  match resolveModel registry (brandMap sr.brand_code) sr.model_name with
  | none => none
  | some ent =>
    let total := totalUnitsByMonth rows sr.month
    let adoption : Option ℚ :=
      match sr.share_ratio with
      | some q => some q
      | none => if total ≠ 0 then some ((sr.sales_units : ℚ) / (total : ℚ)) else none
    some { model_id := ent.model_id, month := sr.month,
           sales_units := (sr.sales_units : Int),
           market_total_units := if total = 0 then none else some total,
           adoption_rate := adoption, source := "DANAWA" }

/-- The row loop of source process_sales_for_brand: statistics plus the facts
upserted, in order. -/
def processSalesRows (registry : List Entity) (brandMap : String → String)
    (rows : List SalesRow) : SalesStats × List SalesFact :=
  rows.foldl
    (fun acc sr =>
      let stats := { acc.1 with total_rows := acc.1.total_rows + 1 }
      match factForRow registry brandMap rows sr with
      | none => ({ stats with no_model_match := stats.no_model_match + 1 }, acc.2)
      | some f => ({ stats with insert_or_update := stats.insert_or_update + 1 }, acc.2 ++ [f]))
    ({ total_rows := 0, no_model_match := 0, insert_or_update := 0 }, [])

/-- Source process_sales_for_brand on one file: parse the rows, then process
the batch. -/
def process_sales_for_brand (registry : List Entity) (brandMap : String → String)
    (brand_code month : String) (cells : List CsvSalesCells) : SalesStats × List SalesFact :=
  processSalesRows registry brandMap (load_normalized_sales_csv brand_code month cells)

/-- The batch total as the spec words it: the sum of sales_units over the rows
of the batch carrying the given month. -/
def batchSum (rows : List SalesRow) (m : String) : Nat :=
  ((rows.filter (fun x => x.month == m)).map (fun x => x.sales_units)).sum

/-! Embedding of src/etl/sales/load_danawa_sales_from_normalized.py. -/

/-- The per-row body of source load_sales: resolve via the prefetched
(brand, model) map and insert with market_total_units and adoption_rate both
NULL; an unparsable volume falls back to 0 rather than rejecting. -/
def fnRowFact (registry : List Entity) (brand_name month : String)
    (r : CsvSalesCells) : Option SalesFact :=
  let model_name := (stripChars r.model_name.data).asString
  let sales_str := stripChars r.sales.data
  if model_name = "" then none
  else
    let sales_units : Int :=
      if sales_str = [] then 0
      else ((pyInt (removeChar ',' sales_str)).getD 0)
    match resolveModel registry brand_name model_name with
    | none => none
    | some ent =>
      some { model_id := ent.model_id, month := month, sales_units := sales_units,
             market_total_units := none, adoption_rate := none, source := "DANAWA" }

/-! Embedding of src/etl/sales/extract_car_model_candidates.py. -/

/-- The per-key aggregate of the candidate extractor (dataclass ModelStat). -/
structure ModelStat where
  brand_name : String
  model_name_kr : String
  first_month : Option String
  last_month : Option String
  months : Finset String
  total_sales : Int
deriving DecidableEq

/-- Source ModelStat.update: keep the lexicographic min and max month, collect
the month into the observed set, accumulate the volume. -/
def ModelStat.update (s : ModelStat) (month : String) (sales : Int) : ModelStat :=
  { s with
    first_month :=
      match s.first_month with
      | none => some month
      | some f => if month < f then some month else some f,
    last_month :=
      match s.last_month with
      | none => some month
      | some l => if l < month then some month else some l,
    months := insert month s.months,
    total_sales := s.total_sales + sales }

/-- One observation row consumed by build_model_candidates: the brand and month
come from the file, the name and volume cells from the CSV row. -/
structure CandRow where
  brand_name : String
  month : String
  model_name : Option String
  sales_str : Option String
deriving DecidableEq

/-- The volume parse of the candidate extractor: int() of the cell with commas
removed, 0 on a missing or empty cell, and 0 again on a ValueError. -/
def candSales (s : Option String) : Int :=
  match s with
  | none => 0
  | some t => if t = "" then 0 else (pyInt (removeChar ',' t.data)).getD 0

/-- Look up the aggregate of a key, or create the fresh one the source builds
on first sight of the key. -/
def statOrNew (m : (String × String) → Option ModelStat) (key : String × String) :
    ModelStat :=
  match m key with
  | some s => s
  | none =>
    { brand_name := key.1, model_name_kr := key.2, first_month := none,
      last_month := none, months := ∅, total_sales := 0 }

/-- The body of the row loop of source build_model_candidates: skip rows with
no model name, look up or create the (brand, name) aggregate, update it. -/
def stepCand (m : (String × String) → Option ModelStat) (r : CandRow) :
    (String × String) → Option ModelStat :=
  match r.model_name with
  | none => m
  | some name =>
    if name = "" then m
    else
      let key := (r.brand_name, name)
      let cur := statOrNew m key
      fun k => if k = key then some (cur.update r.month (candSales r.sales_str)) else m k

/-- Source build_model_candidates: fold the observation stream into the
aggregate map (keys never seen stay absent). -/
def build_model_candidates (rows : List CandRow) : (String × String) → Option ModelStat :=
  rows.foldl stepCand (fun _ => none)

/-! Embedding of src/etl/sales/load_car_model_from_candidates.py. -/

/-- The registry state: the car_model rows plus the auto-increment counter that
mints surrogate model ids. -/
structure RegState where
  nextId : Nat
  rows : List Entity
deriving DecidableEq

/-- The natural-key existence check (SELECT by brand_name, model_name_kr). -/
def keyExists (st : RegState) (b n : String) : Bool :=
  (st.rows.find? (fun e => e.brand_name == b && e.model_name_kr == n)).isSome

/-- Source upsert_car_model, one candidate: look up the natural key; when
absent, insert a fresh row with NULL danawa_model_id and danawa_model_url;
when present, leave the state untouched. -/
def registerOne (st : RegState) (c : String × String) : RegState :=
  if keyExists st c.1.trim c.2.trim then st
  else
    { nextId := st.nextId + 1,
      rows := st.rows ++
        [{ model_id := st.nextId, brand_name := c.1.trim, model_name_kr := c.2.trim,
           danawa_model_id := none, danawa_model_url := none }] }

/-- Source upsert_car_model over the whole candidate file. -/
def upsert_car_model (st : RegState) (cs : List (String × String)) : RegState :=
  cs.foldl registerOne st

/-! Embedding of src/etl/sales/load_danawa_meta_to_db.py (process_meta_for_brand,
one meta row).  The external-identifier extraction (urlparse of the detail URL
for its Model query parameter) happens before any database access; the enrich
step receives the extracted optional id together with the optional detail URL,
which is None or a non-empty string by construction of load_meta_csv. -/

/-- The statistics of the meta loader that the enrich step touches. -/
structure MetaStats where
  no_model_match : Nat
  danawa_id_conflict : Nat
  car_model_updated : Nat
deriving DecidableEq

/-- The conflict probe: does some other entity already own the extracted
danawa id (SELECT ... WHERE danawa_model_id = :id LIMIT 1, then compare
model_id)? -/
def conflictCheck (rows : List Entity) (ent : Entity) (did : Option Int) : Bool :=
  match did with
  | none => false
  | some e0 =>
    match rows.find? (fun x => x.danawa_model_id == some e0) with
    | some c => c.model_id != ent.model_id
    | none => false

/-- The partial UPDATE of one car_model row: the id is written only when the
parameter is non-NULL, the url only when non-NULL and non-empty; otherwise each
column keeps its stored value. -/
def applyUpdate (idForUpdate : Option Int) (durl : Option String) (e : Entity) : Entity :=
  { e with
    danawa_model_id :=
      match idForUpdate with
      | some v => some v
      | none => e.danawa_model_id,
    danawa_model_url :=
      match durl with
      | some u => if u ≠ "" then some u else e.danawa_model_url
      | none => e.danawa_model_url }

/-- Source process_meta_for_brand, one meta row: resolve the entity by natural
key (a miss counts no_model_match and stops); a conflict on the extracted id
blocks the id update (but not the url update) and counts danawa_id_conflict;
then the partial UPDATE runs on the resolved row only. -/
def enrichOne (rows : List Entity) (stats : MetaStats) (b n : String)
    (did : Option Int) (durl : Option String) : List Entity × MetaStats :=
  match resolveModel rows b n with
  | none => (rows, { stats with no_model_match := stats.no_model_match + 1 })
  | some ent =>
    let conflict := conflictCheck rows ent did
    let idForUpdate : Option Int := if conflict then none else did
    let stats1 :=
      if conflict then { stats with danawa_id_conflict := stats.danawa_id_conflict + 1 }
      else stats
    let rows' := rows.map (fun x =>
      if x.model_id = ent.model_id then applyUpdate idForUpdate durl x else x)
    (rows', { stats1 with car_model_updated := stats1.car_model_updated + 1 })

/-! Embedding of the model_monthly_interest upserts of
src/etl/interest/load_naver_interest.py and src/etl/interest/load_google_trend.py.
The row carries every measurement column either loader's INSERT statement
names; a column a statement does not list takes its SQL default NULL on
insert. -/

/-- One row of the model_monthly_interest table (union of the measurement
columns the two loaders name). -/
structure InterestRow where
  naver_index : Option ℚ
  google_index : Option ℚ
  danawa_popularity : Option ℚ
  naver_search_index : Option ℚ
  google_trend_index : Option Int
  danawa_pop_rank : Option Int
  danawa_pop_rank_size : Option Int
deriving DecidableEq

/-- INSERT ... ON DUPLICATE KEY UPDATE naver_index = VALUES(naver_index) for
one key: on insert every other measurement column is NULL; on conflict only
naver_index is overwritten. -/
def upsertNaverRow (cur : Option InterestRow) (v : ℚ) : InterestRow :=
  match cur with
  | none =>
    { naver_index := some v, google_index := none, danawa_popularity := none,
      naver_search_index := none, google_trend_index := none,
      danawa_pop_rank := none, danawa_pop_rank_size := none }
  | some r => { r with naver_index := some v }

/-- INSERT ... ON DUPLICATE KEY UPDATE google_trend_index =
VALUES(google_trend_index) for one key. -/
def upsertGoogleRow (cur : Option InterestRow) (v : Int) : InterestRow :=
  match cur with
  | none =>
    { naver_index := none, google_index := none, danawa_popularity := none,
      naver_search_index := none, google_trend_index := some v,
      danawa_pop_rank := none, danawa_pop_rank_size := none }
  | some r => { r with google_trend_index := some v }

/-- The interest fact table, keyed by (model_id, month). -/
def InterestTable : Type := Int × String → Option InterestRow

/-- One naver-loader upsert against the table. -/
def upsertNaver (T : InterestTable) (mid : Int) (month : String) (v : ℚ) :
    InterestTable :=
  fun k => if k = (mid, month) then some (upsertNaverRow (T (mid, month)) v) else T k

/-- One google-loader upsert against the table. -/
def upsertGoogle (T : InterestTable) (mid : Int) (month : String) (v : Int) :
    InterestTable :=
  fun k => if k = (mid, month) then some (upsertGoogleRow (T (mid, month)) v) else T k

/-! Embedding of src/etl/interest/load_naver_interest.py (load_raw_csv). -/

/-- One raw CSV row of the naver trend file: each field is None when the
column is missing (Python KeyError / dict.get default). -/
structure NaverRawRow where
  model_id : Option String
  date : Option String
  ratio : Option String
deriving DecidableEq

/-- The aggregated point the loader upserts. -/
structure InterestPoint where
  model_id : Int
  month : List Char
  naver_index : ℚ
deriving DecidableEq

/-- Source month_from_date: the 7-character year-month prefix pinned to day
01; a (non-empty) date shorter than 7 characters raises ValueError, which the
caller does not catch — modelled as None. -/
def month_from_date (s : List Char) : Option (List Char) :=
  if 7 ≤ s.length then some (s.take 7 ++ "-01".data) else none

/-- The (model_id, month) buckets of ratios, in insertion order. -/
abbrev NaverBucket : Type := List ((Int × List Char) × List ℚ)

/-- Parse one raw row exactly as the reader loop does.  The outer None is the
uncaught ValueError of month_from_date (run aborts); Some None is a row the
loop silently skips (missing or unparsable model_id, empty date or ratio,
unparsable ratio); Some (Some _) is a datum. -/
def parseNaverRow (row : NaverRawRow) : Option (Option ((Int × List Char) × ℚ)) :=
  match row.model_id with
  | none => some none
  | some ms =>
    match pyInt ms.data with
    | none => some none
    | some mid =>
      let date_str := stripChars (row.date.getD "").data
      let ratio_str := stripChars (row.ratio.getD "").data
      if date_str = [] ∨ ratio_str = [] then some none
      else
        match month_from_date date_str with
        | none => none
        | some month =>
          match pyFloat ratio_str with
          | none => some none
          | some ratio => some (some ((mid, month), ratio))

/-- defaultdict(list) append: extend the key's bucket in place, or open a new
bucket at the end. -/
def bucketAppend (b : NaverBucket) (k : Int × List Char) (q : ℚ) : NaverBucket :=
  match b with
  | [] => [(k, [q])]
  | (k0, qs) :: rest =>
    if k0 = k then (k0, qs ++ [q]) :: rest else (k0, qs) :: bucketAppend rest k q

/-- One iteration of the reader loop. -/
def naverRowStep (b : NaverBucket) (row : NaverRawRow) : Option NaverBucket :=
  match parseNaverRow row with
  | none => none
  | some none => some b
  | some (some (k, q)) => some (bucketAppend b k q)

/-- The reader loop of source load_raw_csv: fold the rows into buckets; None
when a row raises. -/
def load_raw_rows (rows : List NaverRawRow) : Option NaverBucket :=
  rows.foldlM naverRowStep []

/-- Source load_raw_csv: average each non-empty bucket into one InterestPoint
per (model_id, month). -/
def load_raw_csv (rows : List NaverRawRow) : Option (List InterestPoint) :=
  (load_raw_rows rows).map (fun b =>
    (b.filter (fun kr => ¬ kr.2.isEmpty)).map (fun kr =>
      { model_id := kr.1.1, month := kr.1.2,
        naver_index := kr.2.sum / (kr.2.length : ℚ) }))

/-- Bucket lookup by key. -/
def bucketLookup (b : NaverBucket) (k : Int × List Char) : Option (List ℚ) :=
  match b with
  | [] => none
  | (k0, qs) :: rest => if k0 = k then some qs else bucketLookup rest k

/-- The ratios of the valid rows carrying a given key, in reading order — the
spec-side description of what one key's bucket should hold. -/
def validRatios (rows : List NaverRawRow) (k : Int × List Char) : List ℚ :=
  rows.filterMap (fun row =>
    match parseNaverRow row with
    | some (some (k0, q)) => if k0 = k then some q else none
    | _ => none)

/-! Theorems. -/

/-- Helper: the runs collected by digitRunsAux concatenate to the pending run
followed by the remaining digit characters. -/
theorem digitRunsAux_join (l : List Char) :
    ∀ cur, (digitRunsAux l cur).flatten = cur.reverse ++ l.filter Char.isDigit := by
  induction l with
  | nil =>
    intro cur
    by_cases h : cur = [] <;> simp [digitRunsAux, h]
  | cons c cs ih =>
    intro cur
    by_cases hd : c.isDigit
    · simp [digitRunsAux, hd, ih, List.filter_cons]
    · by_cases hc : cur = [] <;>
        simp [digitRunsAux, hd, hc, ih, List.filter_cons]

/-- The digit runs of a string concatenate to exactly its digit characters. -/
theorem digitRuns_join (l : List Char) : (digitRuns l).flatten = l.filter Char.isDigit := by
  simpa using digitRunsAux_join l []

/-- Digit characters survive removing commas: a comma is not a digit. -/
theorem findallDigitsJoined_eq_filter (s : List Char) :
    findallDigitsJoined s = s.filter Char.isDigit := by
  rw [findallDigitsJoined, digitRuns_join, removeChar, List.filter_filter]
  apply List.filter_congr
  intro a _
  by_cases hd : a.isDigit
  · have : ¬ a = ',' := by
      intro h; subst h; simp [Char.isDigit] at hd
    simp [hd, this]
  · simp [hd]

/-- A whitespace character is never a decimal digit. -/
theorem not_isDigit_of_isWhitespace (c : Char) (h : c.isWhitespace = true) :
    c.isDigit = false := by
  simp [Char.isWhitespace] at h
  rcases h with ((h | h) | h) | h <;> subst h <;> decide

/-- Dropping leading whitespace does not change the digit characters. -/
theorem filter_isDigit_dropWhile_ws (l : List Char) :
    (l.dropWhile Char.isWhitespace).filter Char.isDigit = l.filter Char.isDigit := by
  induction l with
  | nil => rfl
  | cons c cs ih =>
    by_cases hw : c.isWhitespace
    · rw [List.dropWhile_cons_of_pos hw, ih, List.filter_cons,
        if_neg (by simp [not_isDigit_of_isWhitespace c hw])]
    · rw [List.dropWhile_cons_of_neg (by simpa using hw)]

/-- Stripping surrounding whitespace does not change the digit characters. -/
theorem filter_isDigit_stripChars (s : List Char) :
    (stripChars s).filter Char.isDigit = s.filter Char.isDigit := by
  rw [stripChars, List.filter_reverse, filter_isDigit_dropWhile_ws, List.filter_reverse,
    List.reverse_reverse, filter_isDigit_dropWhile_ws]


/-- C7: delta parsing.  With two (or more) whitespace tokens the first is
ignored and the second is the delta token; with one token that token is the
delta; a token parses to a negative value when the down glyph is present and a
positive one otherwise; the magnitude comes from the digit characters of the
token and a token without digits (including the empty input) gives None.  The
spec's four sample cells parse as stated. -/
theorem parse_change_field_spec :
    (∀ s t1 t2 : List Char, splitWs (stripChars s) = [t1, t2] →
        parse_change_field s = deltaOfToken t2) ∧
    (∀ s t : List Char, splitWs (stripChars s) = [t] → stripChars s ≠ ['-'] →
        parse_change_field s = deltaOfToken t) ∧
    (∀ t : List Char, '▼' ∈ t → t.filter Char.isDigit ≠ [] →
        deltaOfToken t = some (-(natOfDigits (t.filter Char.isDigit) : Int))) ∧
    (∀ t : List Char, '▼' ∉ t → t.filter Char.isDigit ≠ [] →
        deltaOfToken t = some ((natOfDigits (t.filter Char.isDigit) : Int))) ∧
    (∀ t : List Char, t.filter Char.isDigit = [] → deltaOfToken t = none) ∧
    (parse_change_field "9118 697▲".data = some 697 ∧
      parse_change_field "6578 351▼".data = some (-351) ∧
      parse_change_field "697▲".data = some 697 ∧
      parse_change_field [] = none) := by
  refine ⟨?_, ?_, ?_, ?_, ?_, by decide, by decide, by decide, by decide⟩
  · intro s t1 t2 h
    have hs : ¬ s = [] := by
      intro he; subst he
      simp [stripChars, splitWs, splitWsAux] at h
    have hne : ¬ (stripChars s = [] ∨ stripChars s = ['-']) := by
      rintro (h1 | h1) <;> rw [h1] at h <;> simp [splitWs, splitWsAux] at h
    rw [parse_change_field, if_neg hs]
    simp only [h, if_neg hne]
    simp
  · intro s t h hdash
    have hs : ¬ s = [] := by
      intro he; subst he
      simp [stripChars, splitWs, splitWsAux] at h
    have hne : ¬ (stripChars s = [] ∨ stripChars s = ['-']) := by
      rintro (h1 | h1)
      · rw [h1] at h; simp [splitWs, splitWsAux] at h
      · exact hdash h1
    rw [parse_change_field, if_neg hs]
    simp only [h, if_neg hne]
    simp
  · intro t hmem hds
    rw [deltaOfToken]
    simp only [findallDigitsJoined_eq_filter]
    rw [if_pos hmem, if_neg hds]
    simp
  · intro t hmem hds
    rw [deltaOfToken]
    simp only [findallDigitsJoined_eq_filter]
    rw [if_neg hmem, if_neg hds]
    simp
  · intro t hds
    rw [deltaOfToken]
    simp only [findallDigitsJoined_eq_filter]
    rw [if_pos hds]

/-- C7 witness: the two-token case applied to the sample cell. -/
theorem parse_change_field_spec_witness :
    parse_change_field "9118 697▲".data = deltaOfToken "697▲".data :=
  parse_change_field_spec.1 "9118 697▲".data "9118".data "697▲".data (by decide)

/-- C8 counterexample: the source concatenates all digit runs, not the leading
one: on the cell "1 2" it returns 12 while the spec's leading-run reading
gives 1. -/
theorem parse_int_from_str_leading_run_cex :
    parse_int_from_str (some "1 2".data) = some 12 ∧
    specLeadingRunValue "1 2".data = some 1 ∧
    parse_int_from_str (some "1 2".data) ≠ specLeadingRunValue "1 2".data := by
  decide

/-- A volume cell without a digit character fails to parse. -/
theorem parse_int_from_str_eq_none (s : List Char) (h : s.filter Char.isDigit = []) :
    parse_int_from_str (some s) = none := by
  rw [parse_int_from_str]
  by_cases ht : stripChars s = []
  · simp [ht]
  · simp only [if_neg ht, findallDigitsJoined_eq_filter, filter_isDigit_stripChars]
    simp [h]

/-- A volume cell with a digit parses to the concatenation of all its digit
characters. -/
theorem parse_int_from_str_eq_some (s : List Char) (h : s.filter Char.isDigit ≠ []) :
    parse_int_from_str (some s) = some (natOfDigits (s.filter Char.isDigit)) := by
  have ht : ¬ stripChars s = [] := by
    intro he
    apply h
    rw [← filter_isDigit_stripChars, he]
    rfl
  rw [parse_int_from_str]
  simp only [if_neg ht, findallDigitsJoined_eq_filter, filter_isDigit_stripChars]
  simp [h]

/-- C8 amended: the volume parser strips surrounding whitespace and thousands
separators, and returns the integer denoted by the concatenation of all runs of
digits (equivalently, of all digit characters in order); a cell with no digit
character fails to parse. -/
theorem parse_int_from_str_concat_spec :
    (parse_int_from_str none = none) ∧
    (∀ s : List Char, s.filter Char.isDigit = [] → parse_int_from_str (some s) = none) ∧
    (∀ s : List Char, s.filter Char.isDigit ≠ [] →
        parse_int_from_str (some s) = some (natOfDigits (s.filter Char.isDigit))) :=
  ⟨rfl, parse_int_from_str_eq_none, parse_int_from_str_eq_some⟩

/-- C8 witness: the usual locale-formatted volume cell. -/
theorem parse_int_from_str_concat_spec_witness :
    parse_int_from_str (some "12,345대".data) =
      some (natOfDigits ("12,345대".data.filter Char.isDigit)) :=
  parse_int_from_str_concat_spec.2.2 "12,345대".data (by decide)

/-- getD of a mapped list at an index inside the list. -/
theorem getD_map_lt (f : List Char → List Char) (l : List (List Char)) (i : Nat)
    (h : i < l.length) : (l.map f).getD i [] = f (l.getD i []) := by
  rw [List.getD_eq_getElem?_getD, List.getD_eq_getElem?_getD, List.getElem?_map,
    List.getElem?_eq_getElem h]
  rfl

/-- A raw row with fewer than 6 cells is rejected by normalize_row. -/
theorem normalize_row_short (raw : List (List Char)) (h : raw.length < 6) :
    normalize_row raw = none := by
  rw [normalize_row]
  by_cases hr : raw = []
  · simp [hr]
  · have h7 : ¬ 7 ≤ raw.length := by omega
    have h6 : ¬ 6 ≤ raw.length := by omega
    simp [hr, h7, h6]

/-- A row of at least 6 cells whose volume cell has no digit character is
rejected by normalize_row. -/
theorem normalize_row_no_digit_volume (raw : List (List Char)) (h6 : 6 ≤ raw.length)
    (hcell : (if raw.length ≥ 7 then raw.getD 3 [] else raw.getD 2 []).filter
        Char.isDigit = []) :
    normalize_row raw = none := by
  have hr : ¬ raw = [] := by intro he; subst he; simp at h6
  rw [normalize_row, if_neg hr]
  by_cases h7 : raw.length ≥ 7
  · rw [if_pos h7] at hcell
    have hget : (raw.map stripChars).getD 3 [] = stripChars (raw.getD 3 []) :=
      getD_map_lt _ _ _ (by omega)
    have hparse : parse_int_from_str (some (stripChars (raw.getD 3 []))) = none :=
      parse_int_from_str_eq_none _ (by rw [filter_isDigit_stripChars]; exact hcell)
    simp only [List.length_map, if_pos h7, hget, hparse]
    split <;> rfl
  · rw [if_neg h7] at hcell
    have hget : (raw.map stripChars).getD 2 [] = stripChars (raw.getD 2 []) :=
      getD_map_lt _ _ _ (by omega)
    have hparse : parse_int_from_str (some (stripChars (raw.getD 2 []))) = none :=
      parse_int_from_str_eq_none _ (by rw [filter_isDigit_stripChars]; exact hcell)
    simp only [List.length_map, if_neg h7, if_pos h6, hget, hparse]
    split <;> rfl

/-- A CSV sales row whose volume cell has no digit character is skipped by the
sales loader. -/
theorem rowToSalesRow_none (bc m : String) (r : CsvSalesCells)
    (h : r.sales.data.filter Char.isDigit = []) :
    rowToSalesRow bc m r = none := by
  have hparse : parse_int_from_str (some (stripChars r.sales.data)) = none :=
    parse_int_from_str_eq_none _ (by rw [filter_isDigit_stripChars]; exact h)
  rw [rowToSalesRow]
  simp only [hparse]
  split <;> rfl

/-- C9 (amended): a raw row with fewer than 6 cells, or whose volume cell has
no digits, is rejected by normalization and never reaches the normalized
output; the fact loader also skips such a row, so no fact derived from it is
upserted; the rejection is non-fatal — but silent: the batch statistics and
upserts with the bad row are exactly those of the batch without it (the source
keeps no rejection counter). -/
theorem rejection_propagation_spec :
    (∀ raw : List (List Char), raw.length < 6 → normalize_row raw = none) ∧
    (∀ raw : List (List Char), 6 ≤ raw.length →
        (if raw.length ≥ 7 then raw.getD 3 [] else raw.getD 2 []).filter Char.isDigit = [] →
        normalize_row raw = none) ∧
    (∀ (pre post : List (List (List Char))) (raw : List (List Char)),
        normalize_row raw = none →
        normalizeRows (pre ++ raw :: post) = normalizeRows (pre ++ post)) ∧
    (∀ (bc m : String) (r : CsvSalesCells), r.sales.data.filter Char.isDigit = [] →
        rowToSalesRow bc m r = none) ∧
    (∀ (registry : List Entity) (brandMap : String → String) (bc m : String)
        (pre post : List CsvSalesCells) (r : CsvSalesCells),
        r.sales.data.filter Char.isDigit = [] →
        process_sales_for_brand registry brandMap bc m (pre ++ r :: post) =
          process_sales_for_brand registry brandMap bc m (pre ++ post)) := by
  refine ⟨normalize_row_short, normalize_row_no_digit_volume, ?_, rowToSalesRow_none, ?_⟩
  · intro pre post raw h
    simp [normalizeRows, List.filterMap_append, List.filterMap_cons, h]
  · intro registry brandMap bc m pre post r h
    unfold process_sales_for_brand load_normalized_sales_csv
    rw [List.filterMap_append, List.filterMap_cons, rowToSalesRow_none bc m r h,
      List.filterMap_append]

/-- C9 witness: a 3-cell row is rejected. -/
theorem rejection_propagation_spec_witness :
    normalize_row (["1", "쏘나타", "9118"].map String.data) = none :=
  rejection_propagation_spec.1 (["1", "쏘나타", "9118"].map String.data) (by decide)

/-- C9 counterexample for the "counted" part of the claim: a batch containing
only a no-digit-volume row processes to exactly the state of the empty batch,
all statistics counters included, so no counter records the rejection. -/
theorem rejection_not_counted_cex :
    process_sales_for_brand [⟨1, "현대", "쏘나타", none, none⟩] (fun x => x) "현대"
        "2024-06-01" [⟨"2", "포터", "대", ""⟩] =
      process_sales_for_brand [⟨1, "현대", "쏘나타", none, none⟩] (fun x => x) "현대"
        "2024-06-01" [] ∧
    (process_sales_for_brand [⟨1, "현대", "쏘나타", none, none⟩] (fun x => x) "현대"
        "2024-06-01" [⟨"2", "포터", "대", ""⟩]).1.total_rows = 0 := by
  decide

/-- The month-bucket fold of the sales loader equals the spec's batch sum. -/
theorem totalUnitsByMonth_eq_batchSum (rows : List SalesRow) (m : String) :
    totalUnitsByMonth rows m = batchSum rows m := by
  suffices h : ∀ (l : List SalesRow) (a : Nat),
      l.foldl (fun acc sr => if sr.month = m then acc + sr.sales_units else acc) a =
        a + batchSum l m by
    simpa using h rows 0
  intro l
  induction l with
  | nil => intro a; simp [batchSum]
  | cons x xs ih =>
    intro a
    by_cases hx : x.month = m
    · simp only [List.foldl_cons, if_pos hx, ih, batchSum, List.filter_cons,
        beq_iff_eq, if_pos hx, List.map_cons, List.sum_cons]
      omega
    · simp only [List.foldl_cons, if_neg hx, ih, batchSum, List.filter_cons,
        beq_iff_eq, if_neg hx]

/-- C3 (amended): in the batch sales loader, an unresolved row produces no
fact; a resolved row's fact carries the row's volume, the month, the batch sum
of that month as market_total_units when the sum is non-zero and NULL when it
is zero, and the adoption rate is the supplied share ratio, else volume/sum
when the sum is non-zero, else NULL; the legacy normalized-file loader stores
NULL for both derived columns. -/
theorem sales_derived_metrics_spec :
    (∀ (registry : List Entity) (brandMap : String → String) (rows : List SalesRow)
        (sr : SalesRow),
        resolveModel registry (brandMap sr.brand_code) sr.model_name = none →
        factForRow registry brandMap rows sr = none) ∧
    (∀ (registry : List Entity) (brandMap : String → String) (rows : List SalesRow)
        (sr : SalesRow) (f : SalesFact),
        factForRow registry brandMap rows sr = some f →
        f.sales_units = (sr.sales_units : Int) ∧
        f.month = sr.month ∧
        f.market_total_units =
          (if batchSum rows sr.month = 0 then none else some (batchSum rows sr.month)) ∧
        (∀ q, sr.share_ratio = some q → f.adoption_rate = some q) ∧
        (sr.share_ratio = none → batchSum rows sr.month ≠ 0 →
          f.adoption_rate = some ((sr.sales_units : ℚ) / (batchSum rows sr.month : ℚ))) ∧
        (sr.share_ratio = none → batchSum rows sr.month = 0 → f.adoption_rate = none)) ∧
    (∀ (registry : List Entity) (b m : String) (r : CsvSalesCells) (f : SalesFact),
        fnRowFact registry b m r = some f →
        f.market_total_units = none ∧ f.adoption_rate = none) := by
  refine ⟨?_, ?_, ?_⟩
  · intro registry brandMap rows sr h
    rw [factForRow, h]
  · intro registry brandMap rows sr f hf
    rw [factForRow] at hf
    cases hres : resolveModel registry (brandMap sr.brand_code) sr.model_name with
    | none => rw [hres] at hf; exact absurd hf (by simp)
    | some ent =>
      rw [hres] at hf
      simp only [Option.some.injEq] at hf
      subst hf
      refine ⟨rfl, rfl, ?_, ?_, ?_, ?_⟩
      · simp [totalUnitsByMonth_eq_batchSum]
      · intro q hq; simp [hq]
      · intro hq hne; simp [hq, totalUnitsByMonth_eq_batchSum, hne]
      · intro hq hz; simp [hq, totalUnitsByMonth_eq_batchSum, hz]
  · intro registry b m r f hf
    rw [fnRowFact] at hf
    by_cases hm : (stripChars r.model_name.data).asString = ""
    · rw [if_pos hm] at hf; exact absurd hf (by simp)
    · rw [if_neg hm] at hf
      cases hres : resolveModel registry b ((stripChars r.model_name.data).asString) with
      | none => rw [hres] at hf; exact absurd hf (by simp)
      | some ent =>
        rw [hres] at hf
        simp only [Option.some.injEq] at hf
        subst hf
        exact ⟨rfl, rfl⟩

/-- C3 witness: a one-row batch with a supplied share ratio. -/
theorem sales_derived_metrics_spec_witness :
    (⟨1, "2024-06-01", 100, some 100, some ((177 : ℚ) / 1000), "DANAWA"⟩ :
        SalesFact).market_total_units =
      (if batchSum [⟨"현대", "2024-06-01", 1, "쏘나타", 100, some ((177 : ℚ) / 1000)⟩]
            "2024-06-01" = 0
        then none
        else some (batchSum
          [⟨"현대", "2024-06-01", 1, "쏘나타", 100, some ((177 : ℚ) / 1000)⟩] "2024-06-01")) ∧
    (⟨1, "2024-06-01", 100, some 100, some ((177 : ℚ) / 1000), "DANAWA"⟩ :
        SalesFact).adoption_rate = some ((177 : ℚ) / 1000) :=
  ⟨(sales_derived_metrics_spec.2.1 [⟨1, "현대", "쏘나타", none, none⟩] (fun x => x)
      [⟨"현대", "2024-06-01", 1, "쏘나타", 100, some ((177 : ℚ) / 1000)⟩]
      ⟨"현대", "2024-06-01", 1, "쏘나타", 100, some ((177 : ℚ) / 1000)⟩
      ⟨1, "2024-06-01", 100, some 100, some ((177 : ℚ) / 1000), "DANAWA"⟩ rfl).2.2.1,
   (sales_derived_metrics_spec.2.1 [⟨1, "현대", "쏘나타", none, none⟩] (fun x => x)
      [⟨"현대", "2024-06-01", 1, "쏘나타", 100, some ((177 : ℚ) / 1000)⟩]
      ⟨"현대", "2024-06-01", 1, "쏘나타", 100, some ((177 : ℚ) / 1000)⟩
      ⟨1, "2024-06-01", 100, some 100, some ((177 : ℚ) / 1000), "DANAWA"⟩ rfl).2.2.2.1
      ((177 : ℚ) / 1000) rfl⟩

/-- Two ModelStat values with equal fields are equal. -/
theorem ModelStat.eq_of_fields (a b : ModelStat)
    (h1 : a.brand_name = b.brand_name) (h2 : a.model_name_kr = b.model_name_kr)
    (h3 : a.first_month = b.first_month) (h4 : a.last_month = b.last_month)
    (h5 : a.months = b.months) (h6 : a.total_sales = b.total_sales) : a = b := by
  cases a; cases b; simp_all

/-- The first-month update is the min of the incoming month and the stored one. -/
theorem update_first_month (s : ModelStat) (m : String) (v : Int) :
    (s.update m v).first_month =
      some (match s.first_month with | none => m | some f => min m f) := by
  cases hf : s.first_month with
  | none => simp [ModelStat.update, hf]
  | some f =>
    simp only [ModelStat.update, hf]
    rcases lt_trichotomy m f with h | h | h
    · rw [if_pos h, min_eq_left h.le]
    · subst h; rw [if_neg (lt_irrefl _), min_self]
    · rw [if_neg (not_lt_of_gt h), min_eq_right h.le]

/-- The last-month update is the max of the incoming month and the stored one. -/
theorem update_last_month (s : ModelStat) (m : String) (v : Int) :
    (s.update m v).last_month =
      some (match s.last_month with | none => m | some l => max l m) := by
  cases hl : s.last_month with
  | none => simp [ModelStat.update, hl]
  | some l =>
    simp only [ModelStat.update, hl]
    rcases lt_trichotomy l m with h | h | h
    · rw [if_pos h, max_eq_right h.le]
    · subst h; rw [if_neg (lt_irrefl _), max_self]
    · rw [if_neg (not_lt_of_gt h), max_eq_left h.le]

/-- Two updates of one aggregate commute: min, max, set insertion and addition
are all commutative-associative. -/
theorem ModelStat.update_comm (s : ModelStat) (m1 m2 : String) (v1 v2 : Int) :
    (s.update m1 v1).update m2 v2 = (s.update m2 v2).update m1 v1 := by
  apply ModelStat.eq_of_fields
  · rfl
  · rfl
  · rw [update_first_month, update_first_month, update_first_month, update_first_month]
    cases s.first_month with
    | none => simp [min_comm]
    | some f => simp [min_left_comm]
  · rw [update_last_month, update_last_month, update_last_month, update_last_month]
    cases s.last_month with
    | none => simp [max_comm]
    | some l =>
      show some (max (max l m1) m2) = some (max (max l m2) m1)
      exact congrArg some (sup_right_comm l m1 m2)
  · show insert m2 (insert m1 s.months) = insert m1 (insert m2 s.months)
    exact Finset.Insert.comm m2 m1 s.months
  · show s.total_sales + v1 + v2 = s.total_sales + v2 + v1
    ring

/-- A row with a missing model name leaves the aggregate map unchanged. -/
theorem stepCand_none (m : (String × String) → Option ModelStat) (x : CandRow)
    (h : x.model_name = none) : stepCand m x = m := by
  unfold stepCand; rw [h]

/-- A row with a blank model name leaves the aggregate map unchanged. -/
theorem stepCand_blank (m : (String × String) → Option ModelStat) (x : CandRow)
    (nx : String) (h : x.model_name = some nx) (h2 : nx = "") : stepCand m x = m := by
  unfold stepCand; rw [h]; simp [h2]

/-- Pointwise description of an effective aggregation step. -/
theorem stepCand_eff_apply (m : (String × String) → Option ModelStat) (x : CandRow)
    (nx : String) (h : x.model_name = some nx) (h2 : nx ≠ "") (k : String × String) :
    stepCand m x k =
      if k = (x.brand_name, nx)
        then some ((statOrNew m (x.brand_name, nx)).update x.month (candSales x.sales_str))
        else m k := by
  unfold stepCand; rw [h]; simp [h2]

/-- Looking up a key the map sends to an aggregate returns that aggregate. -/
theorem statOrNew_some (m : (String × String) → Option ModelStat)
    (key : String × String) (v : ModelStat) (h : m key = some v) :
    statOrNew m key = v := by
  unfold statOrNew; rw [h]

/-- Look-up-or-create only depends on the map's value at the key. -/
theorem statOrNew_congr (m1 m2 : (String × String) → Option ModelStat)
    (key : String × String) (h : m1 key = m2 key) :
    statOrNew m1 key = statOrNew m2 key := by
  unfold statOrNew; rw [h]

/-- Looking up-or-creating after an effective step sees the updated aggregate
at the stepped key and the old one elsewhere. -/
theorem statOrNew_step (m : (String × String) → Option ModelStat) (x : CandRow)
    (nx : String) (h : x.model_name = some nx) (h2 : nx ≠ "") (key : String × String) :
    statOrNew (stepCand m x) key =
      if key = (x.brand_name, nx)
        then (statOrNew m (x.brand_name, nx)).update x.month (candSales x.sales_str)
        else statOrNew m key := by
  by_cases hkey : key = (x.brand_name, nx)
  · rw [if_pos hkey, hkey]
    exact statOrNew_some _ _ _ (by rw [stepCand_eff_apply m x nx h h2, if_pos rfl])
  · rw [if_neg hkey]
    exact statOrNew_congr _ _ _ (by rw [stepCand_eff_apply m x nx h h2, if_neg hkey])

/-- Aggregation steps for two rows commute. -/
theorem stepCand_comm (m : (String × String) → Option ModelStat) (x y : CandRow) :
    stepCand (stepCand m x) y = stepCand (stepCand m y) x := by
  rcases hx : x.model_name with _ | nx
  · rw [stepCand_none _ x hx, stepCand_none _ x hx]
  rcases hy : y.model_name with _ | ny
  · rw [stepCand_none _ y hy, stepCand_none _ y hy]
  by_cases hnx : nx = ""
  · rw [stepCand_blank _ x nx hx hnx, stepCand_blank _ x nx hx hnx]
  by_cases hny : ny = ""
  · rw [stepCand_blank _ y ny hy hny, stepCand_blank _ y ny hy hny]
  funext k
  rw [stepCand_eff_apply (stepCand m x) y ny hy hny k,
    stepCand_eff_apply (stepCand m y) x nx hx hnx k,
    stepCand_eff_apply m x nx hx hnx k,
    stepCand_eff_apply m y ny hy hny k,
    statOrNew_step m x nx hx hnx (y.brand_name, ny),
    statOrNew_step m y ny hy hny (x.brand_name, nx)]
  by_cases h1 : k = (y.brand_name, ny) <;> by_cases h2 : k = (x.brand_name, nx)
  · have hxy : (y.brand_name, ny) = (x.brand_name, nx) := h1.symm.trans h2
    rw [if_pos h1, if_pos h2, if_pos hxy, if_pos hxy.symm]
    rw [ModelStat.update_comm]
    rw [hxy]
  · have hxy : ¬ (y.brand_name, ny) = (x.brand_name, nx) := fun he => h2 (h1.trans he)
    rw [if_pos h1, if_neg h2, if_neg hxy, if_pos h1]
  · have hxy : ¬ (x.brand_name, nx) = (y.brand_name, ny) := fun he => h1 (h2.trans he)
    rw [if_neg h1, if_pos h2, if_pos h2, if_neg hxy]
  · rw [if_neg h1, if_neg h2, if_neg h2, if_neg h1]

/-- C4: candidate aggregation is order-independent — permuting the observation
stream leaves the whole aggregate map (first/last month, observed-month set,
total volume per key) unchanged, because the per-row step is a commutative
fold. -/
theorem candidate_aggregation_order_independent (l₁ l₂ : List CandRow)
    (hp : l₁.Perm l₂) : build_model_candidates l₁ = build_model_candidates l₂ := by
  unfold build_model_candidates
  exact hp.foldl_eq' (fun x _ y _ z => stepCand_comm z x y) _

/-- C4 witness: swapping two concrete observations yields the same aggregates. -/
theorem candidate_aggregation_order_independent_witness :
    build_model_candidates
        [⟨"현대", "2024-06", some "쏘나타", some "100"⟩,
         ⟨"기아", "2024-07", some "쏘렌토", some "50"⟩] =
      build_model_candidates
        [⟨"기아", "2024-07", some "쏘렌토", some "50"⟩,
         ⟨"현대", "2024-06", some "쏘나타", some "100"⟩] :=
  candidate_aggregation_order_independent _ _
    (List.Perm.swap (⟨"기아", "2024-07", some "쏘렌토", some "50"⟩ : CandRow)
      (⟨"현대", "2024-06", some "쏘나타", some "100"⟩ : CandRow) [])

/-- Searching an appended list is the search of the left part or else of the
right part. -/
theorem find?_append_or {α : Type} (p : α → Bool) (l1 l2 : List α) :
    (l1 ++ l2).find? p = (l1.find? p).or (l2.find? p) := by
  induction l1 with
  | nil => simp
  | cons a l ih =>
    by_cases hp : p a
    · simp [List.find?_cons_of_pos _ hp]
    · simp only [List.cons_append, List.find?_cons_of_neg _ (by simpa using hp), ih]

/-- A registered key stays registered through one registration step. -/
theorem keyExists_registerOne (st : RegState) (c : String × String) (b n : String)
    (h : keyExists st b n = true) : keyExists (registerOne st c) b n = true := by
  unfold registerOne
  by_cases hc : keyExists st c.1.trim c.2.trim
  · rw [if_pos hc]; exact h
  · rw [if_neg hc]
    unfold keyExists at h ⊢
    obtain ⟨v, hv⟩ := Option.isSome_iff_exists.mp h
    simp [find?_append_or, hv]

/-- A registered key stays registered through a whole registration run. -/
theorem keyExists_upsert (st : RegState) (cs : List (String × String)) (b n : String)
    (h : keyExists st b n = true) : keyExists (upsert_car_model st cs) b n = true := by
  induction cs generalizing st with
  | nil => exact h
  | cons c cs ih => exact ih _ (keyExists_registerOne st c b n h)

/-- After one registration step the candidate's own key is registered. -/
theorem keyExists_registerOne_self (st : RegState) (c : String × String) :
    keyExists (registerOne st c) c.1.trim c.2.trim = true := by
  unfold registerOne
  by_cases hc : keyExists st c.1.trim c.2.trim
  · rw [if_pos hc]; exact hc
  · rw [if_neg hc]
    unfold keyExists at hc ⊢
    rw [find?_append_or, Option.not_isSome_iff_eq_none.mp hc]
    simp

/-- Registration is the identity when every candidate key is already present. -/
theorem upsert_id (st : RegState) (cs : List (String × String))
    (h : ∀ c ∈ cs, keyExists st c.1.trim c.2.trim = true) :
    upsert_car_model st cs = st := by
  induction cs with
  | nil => rfl
  | cons c cs ih =>
    have h1 : registerOne st c = st := by
      unfold registerOne; rw [if_pos (h c (by simp))]
    show upsert_car_model (registerOne st c) cs = st
    rw [h1]
    exact ih (fun c' hc' => h c' (List.mem_cons_of_mem _ hc'))

/-- Every candidate key is registered after the run. -/
theorem keyExists_upsert_self (st : RegState) (cs : List (String × String)) :
    ∀ c ∈ cs, keyExists (upsert_car_model st cs) c.1.trim c.2.trim = true := by
  induction cs generalizing st with
  | nil => intro c hc; simp at hc
  | cons d cs ih =>
    intro c hc
    rcases List.mem_cons.mp hc with h | h
    · subst h
      show keyExists (upsert_car_model (registerOne st c) cs) _ _ = true
      exact keyExists_upsert _ cs _ _ (keyExists_registerOne_self st c)
    · exact ih (registerOne st d) c h

/-- The rows a registration run appends: each carries NULL danawa id and url,
was not registered before the run, comes from the candidate list, and no key is
appended twice; the pre-existing rows survive unchanged as the prefix. -/
theorem upsert_suffix (cs : List (String × String)) (st : RegState) :
    ∃ suffix : List Entity,
      (upsert_car_model st cs).rows = st.rows ++ suffix ∧
      (∀ e ∈ suffix, e.danawa_model_id = none ∧ e.danawa_model_url = none ∧
        keyExists st e.brand_name e.model_name_kr = false ∧
        (e.brand_name, e.model_name_kr) ∈ cs.map (fun c => (c.1.trim, c.2.trim))) ∧
      (suffix.map (fun e => (e.brand_name, e.model_name_kr))).Nodup := by
  induction cs generalizing st with
  | nil => exact ⟨[], by simp [upsert_car_model], by simp, by simp⟩
  | cons c cs ih =>
    by_cases hc : keyExists st c.1.trim c.2.trim
    · have h1 : registerOne st c = st := by unfold registerOne; rw [if_pos hc]
      obtain ⟨suf, hrows, hconds, hnodup⟩ := ih st
      refine ⟨suf, ?_, ?_, hnodup⟩
      · show (upsert_car_model (registerOne st c) cs).rows = _
        rw [h1]; exact hrows
      · intro e he
        obtain ⟨h1', h2', h3', h4'⟩ := hconds e he
        exact ⟨h1', h2', h3', by
          simp only [List.map_cons]; exact List.mem_cons_of_mem _ h4'⟩
    · have h1 : registerOne st c =
          { nextId := st.nextId + 1,
            rows := st.rows ++
              [{ model_id := st.nextId, brand_name := c.1.trim, model_name_kr := c.2.trim,
                 danawa_model_id := none, danawa_model_url := none }] } := by
        unfold registerOne; rw [if_neg hc]
      obtain ⟨suf, hrows, hconds, hnodup⟩ := ih (registerOne st c)
      refine ⟨{ model_id := st.nextId, brand_name := c.1.trim, model_name_kr := c.2.trim,
                danawa_model_id := none, danawa_model_url := none } :: suf, ?_, ?_, ?_⟩
      · show (upsert_car_model (registerOne st c) cs).rows = _
        rw [hrows, h1]
        simp
      · intro e he
        rcases List.mem_cons.mp he with h | h
        · subst h
          refine ⟨rfl, rfl, ?_, ?_⟩
          · simpa using hc
          · simp
        · obtain ⟨h1', h2', h3', h4'⟩ := hconds e h
          refine ⟨h1', h2', ?_, ?_⟩
          · by_contra hx
            have hx' : keyExists st e.brand_name e.model_name_kr = true := by
              revert hx; cases keyExists st e.brand_name e.model_name_kr <;> simp
            rw [keyExists_registerOne st c _ _ hx'] at h3'
            cases h3'
          · simp only [List.map_cons]; exact List.mem_cons_of_mem _ h4'
      · rw [List.map_cons]
        refine List.nodup_cons.mpr ⟨?_, hnodup⟩
        intro hx
        obtain ⟨e, he, hkey⟩ := List.mem_map.mp hx
        obtain ⟨_, _, h3', _⟩ := hconds e he
        have hkey' : e.brand_name = c.1.trim ∧ e.model_name_kr = c.2.trim := by
          simpa [Prod.ext_iff] using hkey
        rw [hkey'.1, hkey'.2, keyExists_registerOne_self st c] at h3'
        cases h3'

/-- C5: candidate registration creates a NULL-enriched entity exactly for the
natural keys not yet registered, never touches an existing row (the stored rows
survive as an unchanged prefix), and running the same candidates again changes
nothing. -/
theorem register_candidates_spec :
    (∀ (st : RegState) (cs : List (String × String)),
      ∃ suffix : List Entity,
        (upsert_car_model st cs).rows = st.rows ++ suffix ∧
        (∀ e ∈ suffix, e.danawa_model_id = none ∧ e.danawa_model_url = none ∧
          keyExists st e.brand_name e.model_name_kr = false ∧
          (e.brand_name, e.model_name_kr) ∈ cs.map (fun c => (c.1.trim, c.2.trim))) ∧
        (suffix.map (fun e => (e.brand_name, e.model_name_kr))).Nodup) ∧
    (∀ (st : RegState) (cs : List (String × String)),
      upsert_car_model (upsert_car_model st cs) cs = upsert_car_model st cs) :=
  ⟨fun st cs => upsert_suffix cs st,
   fun st cs => upsert_id _ _ (keyExists_upsert_self st cs)⟩

/-- C5 witness: registering one candidate twice equals registering it once. -/
theorem register_candidates_spec_witness :
    upsert_car_model (upsert_car_model ⟨1, []⟩ [("현대", "쏘나타")]) [("현대", "쏘나타")] =
      upsert_car_model ⟨1, []⟩ [("현대", "쏘나타")] :=
  register_candidates_spec.2 ⟨1, []⟩ [("현대", "쏘나타")]

/-- The row effect of one enrich call, by resolution outcome. -/
theorem enrichOne_rows (rows : List Entity) (stats : MetaStats) (b n : String)
    (did : Option Int) (durl : Option String) :
    (enrichOne rows stats b n did durl).1 =
      match resolveModel rows b n with
      | none => rows
      | some ent =>
        rows.map (fun x =>
          if x.model_id = ent.model_id
            then applyUpdate (if conflictCheck rows ent did then none else did) durl x
            else x) := by
  unfold enrichOne
  cases resolveModel rows b n <;> rfl

/-- A false conflict probe on an extracted id means either no entity owns the
id, or the resolved entity itself does. -/
theorem conflictCheck_false (rows : List Entity) (ent : Entity) (v : Int)
    (h : conflictCheck rows ent (some v) = false) :
    rows.find? (fun x => x.danawa_model_id == some v) = none ∨
    ∃ c, rows.find? (fun x => x.danawa_model_id == some v) = some c ∧
      c.model_id = ent.model_id := by
  have h' : (match rows.find? (fun x => x.danawa_model_id == some v) with
      | some c => c.model_id != ent.model_id
      | none => false) = false := h
  cases hf : rows.find? (fun x => x.danawa_model_id == some v) with
  | none => exact Or.inl rfl
  | some c =>
    rw [hf] at h'
    refine Or.inr ⟨c, rfl, ?_⟩
    simpa using h'

/-- The partial UPDATE never changes the primary key. -/
theorem applyUpdate_model_id (a : Option Int) (b : Option String) (x : Entity) :
    (applyUpdate a b x).model_id = x.model_id := rfl

/-- With no extracted id the stored id is retained. -/
theorem applyUpdate_id_none (b : Option String) (x : Entity) :
    (applyUpdate none b x).danawa_model_id = x.danawa_model_id := rfl

/-- A non-null id parameter is written. -/
theorem applyUpdate_id_some (v : Int) (b : Option String) (x : Entity) :
    (applyUpdate (some v) b x).danawa_model_id = some v := rfl

/-- With no url the stored url is retained. -/
theorem applyUpdate_url_none (a : Option Int) (x : Entity) :
    (applyUpdate a none x).danawa_model_url = x.danawa_model_url := rfl

/-- An empty url parameter is not written; the stored url is retained. -/
theorem applyUpdate_url_empty (a : Option Int) (x : Entity) :
    (applyUpdate a (some "") x).danawa_model_url = x.danawa_model_url := by
  simp [applyUpdate]

/-- A non-empty url parameter is written. -/
theorem applyUpdate_url_some (a : Option Int) (u : String) (x : Entity) (hu : u ≠ "") :
    (applyUpdate a (some u) x).danawa_model_url = some u := by
  simp [applyUpdate, hu]

/-- Mapping the guarded partial update over the registry preserves uniqueness
of present danawa ids, provided a written id is owned (if at all) only by the
target row. -/
theorem enrich_map_uniq (rows : List Entity) (ent : Entity) (idF : Option Int)
    (durl : Option String)
    (hinj : ∀ x ∈ rows, ∀ y ∈ rows, x.model_id = y.model_id → x = y)
    (huniq : ∀ x ∈ rows, ∀ y ∈ rows, ∀ e : Int,
      x.danawa_model_id = some e → y.danawa_model_id = some e → x = y)
    (hok : ∀ v, idF = some v → ∀ z ∈ rows, z.danawa_model_id = some v →
      z.model_id = ent.model_id) :
    ∀ x' ∈ rows.map (fun x =>
        if x.model_id = ent.model_id then applyUpdate idF durl x else x),
    ∀ y' ∈ rows.map (fun x =>
        if x.model_id = ent.model_id then applyUpdate idF durl x else x),
    ∀ e : Int, x'.danawa_model_id = some e → y'.danawa_model_id = some e →
      x' = y' := by
  intro x' hx' y' hy' e hxe hye
  obtain ⟨x, hx, rfl⟩ := List.mem_map.mp hx'
  obtain ⟨y, hy, rfl⟩ := List.mem_map.mp hy'
  by_cases hxm : x.model_id = ent.model_id <;> by_cases hym : y.model_id = ent.model_id
  · have hxy : x = y := hinj x hx y hy (hxm.trans hym.symm)
    subst hxy
    rfl
  · rw [if_pos hxm] at hxe ⊢
    rw [if_neg hym] at hye ⊢
    cases hidF : idF with
    | none =>
      rw [hidF, applyUpdate_id_none] at hxe
      have hxy : x = y := huniq x hx y hy e hxe hye
      exact absurd (hxy ▸ hxm) hym
    | some v =>
      rw [hidF, applyUpdate_id_some] at hxe
      have hv : v = e := by injection hxe
      subst hv
      exact absurd (hok v hidF y hy hye) hym
  · rw [if_neg hxm] at hxe ⊢
    rw [if_pos hym] at hye ⊢
    cases hidF : idF with
    | none =>
      rw [hidF, applyUpdate_id_none] at hye
      have hxy : x = y := huniq x hx y hy e hxe hye
      exact absurd (hxy.symm ▸ hym) hxm
    | some v =>
      rw [hidF, applyUpdate_id_some] at hye
      have hv : v = e := by injection hye
      subst hv
      exact absurd (hok v hidF x hx hxe) hxm
  · rw [if_neg hxm] at hxe ⊢
    rw [if_neg hym] at hye ⊢
    exact huniq x hx y hy e hxe hye

/-- C2: first-writer-wins.  Enriching entity Y with an id E already owned by a
different entity X is a collision: the conflict counter is incremented, every
row keeps its danawa id (Y included) while Y's url is still updated, X survives
unchanged, as does every row other than Y; and any enrich call preserves
uniqueness of present danawa ids across entities. -/
theorem enrich_first_writer_wins :
    (∀ (rows : List Entity) (stats : MetaStats) (b n : String) (E : Int) (u : String)
        (X Y : Entity),
      X ∈ rows →
      X.danawa_model_id = some E →
      (∀ z ∈ rows, z.danawa_model_id = some E → z = X) →
      resolveModel rows b n = some Y →
      Y.model_id ≠ X.model_id →
      u ≠ "" →
      (enrichOne rows stats b n (some E) (some u)).2.danawa_id_conflict =
          stats.danawa_id_conflict + 1 ∧
      (enrichOne rows stats b n (some E) (some u)).1 =
        rows.map (fun z => if z.model_id = Y.model_id
          then { z with danawa_model_url := some u } else z) ∧
      X ∈ (enrichOne rows stats b n (some E) (some u)).1 ∧
      (∀ z ∈ rows, z.model_id ≠ Y.model_id →
        z ∈ (enrichOne rows stats b n (some E) (some u)).1)) ∧
    (∀ (rows : List Entity) (stats : MetaStats) (b n : String) (did : Option Int)
        (durl : Option String),
      (∀ x ∈ rows, ∀ y ∈ rows, x.model_id = y.model_id → x = y) →
      (∀ x ∈ rows, ∀ y ∈ rows, ∀ e : Int,
        x.danawa_model_id = some e → y.danawa_model_id = some e → x = y) →
      (∀ x ∈ (enrichOne rows stats b n did durl).1,
       ∀ y ∈ (enrichOne rows stats b n did durl).1, ∀ e : Int,
        x.danawa_model_id = some e → y.danawa_model_id = some e → x = y)) := by
  constructor
  · intro rows stats b n E u X Y hX hXE huniq hres hne hu
    have hfs : (rows.find? (fun x => x.danawa_model_id == some E)).isSome := by
      rw [List.find?_isSome]
      exact ⟨X, hX, by simp [hXE]⟩
    obtain ⟨c, hc⟩ := Option.isSome_iff_exists.mp hfs
    have hcE : c.danawa_model_id = some E := by
      have := List.find?_some hc
      simpa using this
    have hcX : c = X := huniq c (List.mem_of_find?_eq_some hc) hcE
    have hconf : conflictCheck rows Y (some E) = true := by
      show (match rows.find? (fun x => x.danawa_model_id == some E) with
        | some c => c.model_id != Y.model_id
        | none => false) = true
      rw [hc, hcX]
      simp only [bne_iff_ne, ne_eq]
      exact fun he => hne he.symm
    have hmapeq : (enrichOne rows stats b n (some E) (some u)).1 =
        rows.map (fun z => if z.model_id = Y.model_id
          then { z with danawa_model_url := some u } else z) := by
      rw [enrichOne_rows, hres]
      simp only [hconf, if_true]
      apply List.map_congr_left
      intro z _
      by_cases hz : z.model_id = Y.model_id
      · rw [if_pos hz, if_pos hz]
        simp [applyUpdate, hu]
      · rw [if_neg hz, if_neg hz]
    refine ⟨?_, hmapeq, ?_, ?_⟩
    · unfold enrichOne
      rw [hres]
      simp only [hconf, if_true]
    · rw [hmapeq]
      have hXX : (if X.model_id = Y.model_id
          then { X with danawa_model_url := some u } else X) = X :=
        if_neg (fun he => hne he.symm)
      exact hXX ▸ List.mem_map_of_mem _ hX
    · intro z hz hzne
      rw [hmapeq]
      have hzz : (if z.model_id = Y.model_id
          then { z with danawa_model_url := some u } else z) = z := if_neg hzne
      exact hzz ▸ List.mem_map_of_mem _ hz
  · intro rows stats b n did durl hinj huniq
    rw [enrichOne_rows]
    cases hres : resolveModel rows b n with
    | none => exact huniq
    | some ent =>
      by_cases hconf : conflictCheck rows ent did
      · simp only [hconf, if_true]
        exact enrich_map_uniq rows ent none durl hinj huniq
          (fun v hv => by cases hv)
      · have hconf' : conflictCheck rows ent did = false := by
          revert hconf; cases conflictCheck rows ent did <;> simp
        simp only [hconf', Bool.false_eq_true, if_false]
        apply enrich_map_uniq rows ent did durl hinj huniq
        intro v hv z hz hzv
        subst hv
        rcases conflictCheck_false rows ent v hconf' with hnone | ⟨c, hcfind, hcid⟩
        · have := List.find?_eq_none.mp hnone z hz
          simp [hzv] at this
        · have hcE : c.danawa_model_id = some v := by
            have := List.find?_some hcfind
            simpa using this
          have hzc : z = c :=
            huniq z hz c (List.mem_of_find?_eq_some hcfind) v hzv hcE
          rw [hzc]
          exact hcid

/-- C2 witness: a concrete two-entity registry where the second entity is
enriched with the id its sibling already owns. -/
theorem enrich_first_writer_wins_witness :
    (enrichOne [⟨1, "현대", "쏘나타", some 33191, some "u1"⟩,
        ⟨2, "현대", "아반떼", none, none⟩] ⟨0, 0, 0⟩ "현대" "아반떼"
        (some 33191) (some "u2")).2.danawa_id_conflict = 0 + 1 ∧
    (⟨1, "현대", "쏘나타", some 33191, some "u1"⟩ : Entity) ∈
      (enrichOne [⟨1, "현대", "쏘나타", some 33191, some "u1"⟩,
        ⟨2, "현대", "아반떼", none, none⟩] ⟨0, 0, 0⟩ "현대" "아반떼"
        (some 33191) (some "u2")).1 := by
  have h := enrich_first_writer_wins.1
    [⟨1, "현대", "쏘나타", some 33191, some "u1"⟩, ⟨2, "현대", "아반떼", none, none⟩]
    ⟨0, 0, 0⟩ "현대" "아반떼" 33191 "u2"
    ⟨1, "현대", "쏘나타", some 33191, some "u1"⟩ ⟨2, "현대", "아반떼", none, none⟩
    (by decide) rfl (by decide) (by decide) (by decide) (by decide)
  exact ⟨h.1, h.2.2.1⟩

/-- C6: a non-colliding enrich call is a partial update: the update runs on the
resolved row only; the id column is written only for a non-null extracted id
and the url column only for a non-empty supplied url; a field the caller did
not supply keeps its stored value, and no stored value is ever nulled out;
every other row is untouched. -/
theorem enrich_partial_update_spec :
    (∀ (rows : List Entity) (stats : MetaStats) (b n : String) (did : Option Int)
        (durl : Option String) (Y : Entity),
      resolveModel rows b n = some Y →
      conflictCheck rows Y did = false →
      (enrichOne rows stats b n did durl).1 =
        rows.map (fun x =>
          if x.model_id = Y.model_id then applyUpdate did durl x else x)) ∧
    (∀ (durl : Option String) (x : Entity),
      (applyUpdate none durl x).danawa_model_id = x.danawa_model_id) ∧
    (∀ (did : Option Int) (x : Entity),
      (applyUpdate did none x).danawa_model_url = x.danawa_model_url) ∧
    (∀ (did : Option Int) (x : Entity),
      (applyUpdate did (some "") x).danawa_model_url = x.danawa_model_url) ∧
    (∀ (e0 : Int) (durl : Option String) (x : Entity),
      (applyUpdate (some e0) durl x).danawa_model_id = some e0) ∧
    (∀ (did : Option Int) (u : String) (x : Entity), u ≠ "" →
      (applyUpdate did (some u) x).danawa_model_url = some u) ∧
    (∀ (rows : List Entity) (stats : MetaStats) (b n : String) (did : Option Int)
        (durl : Option String) (Y z : Entity),
      resolveModel rows b n = some Y → z ∈ rows → z.model_id ≠ Y.model_id →
      z ∈ (enrichOne rows stats b n did durl).1) := by
  refine ⟨?_, applyUpdate_id_none, applyUpdate_url_none, applyUpdate_url_empty,
    applyUpdate_id_some, applyUpdate_url_some, ?_⟩
  · intro rows stats b n did durl Y hres hcf
    simp only [enrichOne_rows, hres, hcf, Bool.false_eq_true, if_false]
  · intro rows stats b n did durl Y z hres hz hzne
    simp only [enrichOne_rows, hres]
    have hzz : (if z.model_id = Y.model_id
        then applyUpdate (if conflictCheck rows Y did then none else did) durl z
        else z) = z := if_neg hzne
    exact hzz ▸ List.mem_map_of_mem _ hz

/-- C6 witness: a one-entity registry enriched with no extracted id and no url
keeps its stored id and url. -/
theorem enrich_partial_update_spec_witness :
    (enrichOne [⟨2, "현대", "아반떼", some 7, some "old"⟩] ⟨0, 0, 0⟩ "현대" "아반떼"
        none none).1 =
      [⟨2, "현대", "아반떼", some 7, some "old"⟩].map
        (fun x => if x.model_id = 2 then applyUpdate none none x else x) :=
  enrich_partial_update_spec.1 [⟨2, "현대", "아반떼", some 7, some "old"⟩] ⟨0, 0, 0⟩
    "현대" "아반떼" none none ⟨2, "현대", "아반떼", some 7, some "old"⟩
    (by decide) (by decide)

/-- The naver upsert always ends with its own column set. -/
theorem upsertNaverRow_naver (cur : Option InterestRow) (v : ℚ) :
    (upsertNaverRow cur v).naver_index = some v := by
  cases cur <;> rfl

/-- The google upsert always ends with its own column set. -/
theorem upsertGoogleRow_gti (cur : Option InterestRow) (v : Int) :
    (upsertGoogleRow cur v).google_trend_index = some v := by
  cases cur <;> rfl

/-- C1: interest merge is column-preserving.  On first insert each loader
leaves every measurement column but its own NULL; on conflict only the calling
loader's column is overwritten and every other column keeps its stored value;
hence writing naver then google (or google then naver) on one (model_id,
month) leaves both values present, writing naver twice never nulls the google
column, and rows of other keys are untouched. -/
theorem interest_merge_column_preserving :
    (∀ v : ℚ,
      (upsertNaverRow none v).naver_index = some v ∧
      (upsertNaverRow none v).google_index = none ∧
      (upsertNaverRow none v).danawa_popularity = none ∧
      (upsertNaverRow none v).naver_search_index = none ∧
      (upsertNaverRow none v).google_trend_index = none ∧
      (upsertNaverRow none v).danawa_pop_rank = none ∧
      (upsertNaverRow none v).danawa_pop_rank_size = none) ∧
    (∀ v : Int,
      (upsertGoogleRow none v).google_trend_index = some v ∧
      (upsertGoogleRow none v).naver_index = none ∧
      (upsertGoogleRow none v).google_index = none ∧
      (upsertGoogleRow none v).danawa_popularity = none ∧
      (upsertGoogleRow none v).naver_search_index = none ∧
      (upsertGoogleRow none v).danawa_pop_rank = none ∧
      (upsertGoogleRow none v).danawa_pop_rank_size = none) ∧
    (∀ (r : InterestRow) (v : ℚ),
      (upsertNaverRow (some r) v).naver_index = some v ∧
      (upsertNaverRow (some r) v).google_index = r.google_index ∧
      (upsertNaverRow (some r) v).danawa_popularity = r.danawa_popularity ∧
      (upsertNaverRow (some r) v).naver_search_index = r.naver_search_index ∧
      (upsertNaverRow (some r) v).google_trend_index = r.google_trend_index ∧
      (upsertNaverRow (some r) v).danawa_pop_rank = r.danawa_pop_rank ∧
      (upsertNaverRow (some r) v).danawa_pop_rank_size = r.danawa_pop_rank_size) ∧
    (∀ (r : InterestRow) (v : Int),
      (upsertGoogleRow (some r) v).google_trend_index = some v ∧
      (upsertGoogleRow (some r) v).naver_index = r.naver_index ∧
      (upsertGoogleRow (some r) v).google_index = r.google_index ∧
      (upsertGoogleRow (some r) v).danawa_popularity = r.danawa_popularity ∧
      (upsertGoogleRow (some r) v).naver_search_index = r.naver_search_index ∧
      (upsertGoogleRow (some r) v).danawa_pop_rank = r.danawa_pop_rank ∧
      (upsertGoogleRow (some r) v).danawa_pop_rank_size = r.danawa_pop_rank_size) ∧
    (∀ (T : InterestTable) (mid : Int) (month : String) (va : ℚ) (vb : Int),
      (upsertGoogle (upsertNaver T mid month va) mid month vb) (mid, month) =
        some (upsertGoogleRow (some (upsertNaverRow (T (mid, month)) va)) vb) ∧
      (upsertGoogleRow (some (upsertNaverRow (T (mid, month)) va)) vb).naver_index =
        some va ∧
      (upsertGoogleRow (some (upsertNaverRow (T (mid, month)) va)) vb).google_trend_index =
        some vb) ∧
    (∀ (T : InterestTable) (mid : Int) (month : String) (va : ℚ) (vb : Int),
      (upsertNaver (upsertGoogle T mid month vb) mid month va) (mid, month) =
        some (upsertNaverRow (some (upsertGoogleRow (T (mid, month)) vb)) va) ∧
      (upsertNaverRow (some (upsertGoogleRow (T (mid, month)) vb)) va).naver_index =
        some va ∧
      (upsertNaverRow (some (upsertGoogleRow (T (mid, month)) vb)) va).google_trend_index =
        some vb) ∧
    (∀ (cur : Option InterestRow) (va va' : ℚ),
      (upsertNaverRow (some (upsertNaverRow cur va)) va').google_trend_index =
        (upsertNaverRow cur va).google_trend_index ∧
      (upsertNaverRow (some (upsertNaverRow cur va)) va').naver_index = some va') ∧
    (∀ (T : InterestTable) (mid : Int) (month : String) (va : ℚ) (k : Int × String),
      k ≠ (mid, month) → upsertNaver T mid month va k = T k) ∧
    (∀ (T : InterestTable) (mid : Int) (month : String) (vb : Int) (k : Int × String),
      k ≠ (mid, month) → upsertGoogle T mid month vb k = T k) := by
  refine ⟨?_, ?_, ?_, ?_, ?_, ?_, ?_, ?_, ?_⟩
  · intro v; exact ⟨rfl, rfl, rfl, rfl, rfl, rfl, rfl⟩
  · intro v; exact ⟨rfl, rfl, rfl, rfl, rfl, rfl, rfl⟩
  · intro r v; exact ⟨rfl, rfl, rfl, rfl, rfl, rfl, rfl⟩
  · intro r v; exact ⟨rfl, rfl, rfl, rfl, rfl, rfl, rfl⟩
  · intro T mid month va vb
    refine ⟨?_, ?_, upsertGoogleRow_gti _ _⟩
    · show (if ((mid, month) : Int × String) = (mid, month)
          then some (upsertGoogleRow ((upsertNaver T mid month va) (mid, month)) vb)
          else (upsertNaver T mid month va) (mid, month)) = _
      rw [if_pos rfl]
      show some (upsertGoogleRow (if ((mid, month) : Int × String) = (mid, month)
          then some (upsertNaverRow (T (mid, month)) va) else T (mid, month)) vb) = _
      rw [if_pos rfl]
    · show (upsertNaverRow (T (mid, month)) va).naver_index = some va
      exact upsertNaverRow_naver _ _
  · intro T mid month va vb
    refine ⟨?_, upsertNaverRow_naver _ _, ?_⟩
    · show (if ((mid, month) : Int × String) = (mid, month)
          then some (upsertNaverRow ((upsertGoogle T mid month vb) (mid, month)) va)
          else (upsertGoogle T mid month vb) (mid, month)) = _
      rw [if_pos rfl]
      show some (upsertNaverRow (if ((mid, month) : Int × String) = (mid, month)
          then some (upsertGoogleRow (T (mid, month)) vb) else T (mid, month)) va) = _
      rw [if_pos rfl]
    · show (upsertGoogleRow (T (mid, month)) vb).google_trend_index = some vb
      exact upsertGoogleRow_gti _ _
  · intro cur va va'; exact ⟨rfl, rfl⟩
  · intro T mid month va k hk
    exact if_neg hk
  · intro T mid month vb k hk
    exact if_neg hk

/-- C1 witness: an upsert at one key leaves another key's row unchanged. -/
theorem interest_merge_column_preserving_witness :
    upsertNaver (fun _ => none) 1 "2024-06-01" 1 (2, "2024-06-01") = none :=
  interest_merge_column_preserving.2.2.2.2.2.2.2.1 (fun _ => none) 1 "2024-06-01" 1
    (2, "2024-06-01") (by decide)

/-- Lookup after a bucket append: the appended key gains the ratio at the end
of its bucket, every other key is untouched. -/
theorem bucketAppend_lookup (b : NaverBucket) (k : Int × List Char) (q : ℚ)
    (k' : Int × List Char) :
    bucketLookup (bucketAppend b k q) k' =
      if k' = k then some ((bucketLookup b k).getD [] ++ [q])
      else bucketLookup b k' := by
  induction b with
  | nil =>
    by_cases hk : k' = k
    · subst hk; simp [bucketAppend, bucketLookup]
    · have hk2 : ¬ k = k' := fun h => hk h.symm
      simp [bucketAppend, bucketLookup, hk, hk2]
  | cons kv rest ih =>
    obtain ⟨k0, qs⟩ := kv
    by_cases h0 : k0 = k
    · subst h0
      by_cases hk : k' = k0
      · subst hk
        simp [bucketAppend, bucketLookup]
      · have hk2 : ¬ k0 = k' := fun h => hk h.symm
        simp [bucketAppend, bucketLookup, hk, hk2]
    · by_cases hk : k' = k
      · subst hk
        have hk2 : ¬ k0 = k' := h0
        simp [bucketAppend, bucketLookup, h0, hk2, ih]
      · by_cases hk0 : k0 = k'
        · subst hk0
          simp [bucketAppend, bucketLookup, h0, hk, ih]
        · simp [bucketAppend, bucketLookup, h0, hk, hk0, ih]

/-- A row that raises makes the step raise. -/
theorem naverRowStep_none (b : NaverBucket) (row : NaverRawRow)
    (h : parseNaverRow row = none) : naverRowStep b row = none := by
  unfold naverRowStep; rw [h]

/-- A skipped row leaves the buckets unchanged. -/
theorem naverRowStep_skip (b : NaverBucket) (row : NaverRawRow)
    (h : parseNaverRow row = some none) : naverRowStep b row = some b := by
  unfold naverRowStep; rw [h]

/-- A datum row appends its ratio to its key's bucket. -/
theorem naverRowStep_datum (b : NaverBucket) (row : NaverRawRow)
    (k : Int × List Char) (q : ℚ) (h : parseNaverRow row = some (some (k, q))) :
    naverRowStep b row = some (bucketAppend b k q) := by
  unfold naverRowStep; rw [h]

/-- The bucket fold, started anywhere, extends each key's bucket by exactly the
valid ratios of that key. -/
theorem load_raw_rows_lookup_aux (rows : List NaverRawRow) :
    ∀ b b' : NaverBucket, List.foldlM naverRowStep b rows = some b' →
    ∀ k, bucketLookup b' k =
      match bucketLookup b k with
      | none => if validRatios rows k = [] then none else some (validRatios rows k)
      | some cur => some (cur ++ validRatios rows k) := by
  induction rows with
  | nil =>
    intro b b' h k
    have hb : b = b' := by simpa using h
    subst hb
    have hv : validRatios [] k = [] := rfl
    rw [hv]
    cases bucketLookup b k <;> simp
  | cons row rest ih =>
    intro b b' h k
    rw [List.foldlM_cons] at h
    cases hp : parseNaverRow row with
    | none =>
      rw [naverRowStep_none b row hp] at h
      cases h
    | some o =>
      cases o with
      | none =>
        rw [naverRowStep_skip b row hp] at h
        rw [Option.bind_eq_bind, Option.some_bind] at h
        have hv : validRatios (row :: rest) k = validRatios rest k := by
          simp [validRatios, List.filterMap_cons, hp]
        rw [hv]
        exact ih b b' h k
      | some kq =>
        obtain ⟨k0, q⟩ := kq
        rw [naverRowStep_datum b row k0 q hp] at h
        rw [Option.bind_eq_bind, Option.some_bind] at h
        have hrec := ih (bucketAppend b k0 q) b' h k
        rw [bucketAppend_lookup] at hrec
        by_cases hk : k = k0
        · subst hk
          have hv : validRatios (row :: rest) k = q :: validRatios rest k := by
            simp [validRatios, List.filterMap_cons, hp]
          rw [hv]
          rw [if_pos rfl] at hrec
          cases hcur : bucketLookup b k with
          | none =>
            rw [hcur] at hrec
            simpa using hrec
          | some cur =>
            rw [hcur] at hrec
            simpa [List.append_assoc] using hrec
        · have hk2 : ¬ k0 = k := fun hh => hk hh.symm
          have hv : validRatios (row :: rest) k = validRatios rest k := by
            simp [validRatios, List.filterMap_cons, hp, hk2]
          rw [hv]
          rw [if_neg hk] at hrec
          exact hrec

/-- Each key's final bucket holds exactly its valid ratios. -/
theorem load_raw_rows_lookup (rows : List NaverRawRow) (b : NaverBucket)
    (h : load_raw_rows rows = some b) (k : Int × List Char) :
    bucketLookup b k =
      if validRatios rows k = [] then none else some (validRatios rows k) := by
  have haux := load_raw_rows_lookup_aux rows [] b h k
  simpa [bucketLookup] using haux

/-- Every entry after an append carries a key of the original bucket or the
appended key. -/
theorem bucketAppend_fst_mem (b : NaverBucket) (k : Int × List Char) (q : ℚ) :
    ∀ c ∈ bucketAppend b k q, (∃ qs0, (c.1, qs0) ∈ b) ∨ c.1 = k := by
  induction b with
  | nil =>
    intro c hc
    have hc' : c = (k, [q]) := by simpa [bucketAppend] using hc
    exact Or.inr (by rw [hc'])
  | cons kv rest ih =>
    obtain ⟨k0, qs⟩ := kv
    intro c hc
    by_cases h0 : k0 = k
    · rw [show bucketAppend ((k0, qs) :: rest) k q = (k0, qs ++ [q]) :: rest from by
        simp [bucketAppend, h0]] at hc
      rcases List.mem_cons.mp hc with he | hm
      · exact Or.inl ⟨qs, by rw [he]; exact List.mem_cons_self _ _⟩
      · exact Or.inl ⟨c.2, List.mem_cons_of_mem _ hm⟩
    · rw [show bucketAppend ((k0, qs) :: rest) k q = (k0, qs) :: bucketAppend rest k q from by
        simp [bucketAppend, h0]] at hc
      rcases List.mem_cons.mp hc with he | hm
      · exact Or.inl ⟨qs, by rw [he]; exact List.mem_cons_self _ _⟩
      · rcases ih c hm with ⟨qs0, hq⟩ | he
        · exact Or.inl ⟨qs0, List.mem_cons_of_mem _ hq⟩
        · exact Or.inr he

/-- Appending a ratio keeps the bucket keys pairwise distinct. -/
theorem bucketAppend_keys_nodup (b : NaverBucket) (k : Int × List Char) (q : ℚ)
    (h : b.Pairwise (fun a c => a.1 ≠ c.1)) :
    (bucketAppend b k q).Pairwise (fun a c => a.1 ≠ c.1) := by
  induction b with
  | nil => simp [bucketAppend]
  | cons kv rest ih =>
    obtain ⟨k0, qs⟩ := kv
    rw [List.pairwise_cons] at h
    by_cases h0 : k0 = k
    · rw [show bucketAppend ((k0, qs) :: rest) k q = (k0, qs ++ [q]) :: rest from by
        simp [bucketAppend, h0]]
      rw [List.pairwise_cons]
      exact h
    · rw [show bucketAppend ((k0, qs) :: rest) k q = (k0, qs) :: bucketAppend rest k q from by
        simp [bucketAppend, h0]]
      rw [List.pairwise_cons]
      refine ⟨?_, ih h.2⟩
      intro c hc
      rcases bucketAppend_fst_mem rest k q c hc with ⟨qs0, hq⟩ | he
      · exact h.1 (c.1, qs0) hq
      · rw [he]; exact h0

/-- The bucket fold keeps the keys pairwise distinct. -/
theorem load_raw_rows_keys_nodup (rows : List NaverRawRow) :
    ∀ b b' : NaverBucket, b.Pairwise (fun a c => a.1 ≠ c.1) →
    List.foldlM naverRowStep b rows = some b' →
    b'.Pairwise (fun a c => a.1 ≠ c.1) := by
  induction rows with
  | nil =>
    intro b b' hb h
    have hbb : b = b' := by simpa using h
    exact hbb ▸ hb
  | cons row rest ih =>
    intro b b' hb h
    rw [List.foldlM_cons] at h
    cases hp : parseNaverRow row with
    | none => rw [naverRowStep_none b row hp] at h; cases h
    | some o =>
      cases o with
      | none =>
        rw [naverRowStep_skip b row hp] at h
        rw [Option.bind_eq_bind, Option.some_bind] at h
        exact ih b b' hb h
      | some kq =>
        obtain ⟨k0, q⟩ := kq
        rw [naverRowStep_datum b row k0 q hp] at h
        rw [Option.bind_eq_bind, Option.some_bind] at h
        exact ih _ b' (bucketAppend_keys_nodup b k0 q hb) h

/-- With pairwise-distinct keys, membership determines the lookup. -/
theorem bucketLookup_of_mem (b : NaverBucket)
    (h : b.Pairwise (fun a c => a.1 ≠ c.1)) (k : Int × List Char) (qs : List ℚ)
    (hmem : (k, qs) ∈ b) : bucketLookup b k = some qs := by
  induction b with
  | nil => simp at hmem
  | cons kv rest ih =>
    obtain ⟨k0, qs0⟩ := kv
    rw [List.pairwise_cons] at h
    rcases List.mem_cons.mp hmem with he | hmem'
    · have hk : k0 = k := congrArg Prod.fst he.symm
      have hq : qs0 = qs := congrArg Prod.snd he.symm
      show (if k0 = k then some qs0 else bucketLookup rest k) = some qs
      rw [if_pos hk, hq]
    · have hk0 : ¬ k0 = k := fun he0 => h.1 (k, qs) hmem' he0
      show (if k0 = k then some qs0 else bucketLookup rest k) = some qs
      rw [if_neg hk0]
      exact ih h.2 hmem'

/-- C10 (amended): the naver interest loader aggregates before writing — a
row with a missing or unparsable model_id, an empty date or ratio cell, or an
unparsable ratio is silently dropped; a run whose rows never carry a non-empty
date shorter than 7 characters completes, and then the value upserted for each
(modelId, month) key is the arithmetic mean of that key's valid ratios; a key
with no valid ratio is never written.  (A non-empty date shorter than 7
characters instead raises an uncaught error aborting the run.) -/
theorem naver_mean_aggregation_spec :
    (∀ (rows : List NaverRawRow) (b : NaverBucket), load_raw_rows rows = some b →
      ∀ k, bucketLookup b k =
        if validRatios rows k = [] then none else some (validRatios rows k)) ∧
    (∀ (rows : List NaverRawRow) (pts : List InterestPoint),
      load_raw_csv rows = some pts →
      ∀ p ∈ pts, validRatios rows (p.model_id, p.month) ≠ [] ∧
        p.naver_index = (validRatios rows (p.model_id, p.month)).sum /
          ((validRatios rows (p.model_id, p.month)).length : ℚ)) ∧
    (∀ (rows : List NaverRawRow) (pts : List InterestPoint) (k : Int × List Char),
      load_raw_csv rows = some pts → validRatios rows k = [] →
      ∀ p ∈ pts, (p.model_id, p.month) ≠ k) ∧
    (∀ (pre post : List NaverRawRow) (row : NaverRawRow),
      parseNaverRow row = some none →
      load_raw_csv (pre ++ row :: post) = load_raw_csv (pre ++ post)) ∧
    (∀ rows : List NaverRawRow, (∀ row ∈ rows, parseNaverRow row ≠ none) →
      load_raw_rows rows ≠ none) := by
  have hB : ∀ (rows : List NaverRawRow) (pts : List InterestPoint),
      load_raw_csv rows = some pts →
      ∀ p ∈ pts, validRatios rows (p.model_id, p.month) ≠ [] ∧
        p.naver_index = (validRatios rows (p.model_id, p.month)).sum /
          ((validRatios rows (p.model_id, p.month)).length : ℚ) := by
    intro rows pts h p hp
    unfold load_raw_csv at h
    cases hb : load_raw_rows rows with
    | none => rw [hb] at h; cases h
    | some b =>
      rw [hb] at h
      rw [Option.map_some'] at h
      have hpts : pts = (b.filter (fun kr => ¬ kr.2.isEmpty)).map (fun kr =>
          { model_id := kr.1.1, month := kr.1.2,
            naver_index := kr.2.sum / (kr.2.length : ℚ) : InterestPoint }) :=
        (Option.some.inj h).symm
      subst hpts
      obtain ⟨kr, hkrmem, hpkr⟩ := List.mem_map.mp hp
      have hkr2 := List.mem_filter.mp hkrmem
      have hnodup : b.Pairwise (fun a c => a.1 ≠ c.1) :=
        load_raw_rows_keys_nodup rows [] b List.Pairwise.nil hb
      have hlook : bucketLookup b kr.1 = some kr.2 :=
        bucketLookup_of_mem b hnodup kr.1 kr.2 hkr2.1
      have hchar := load_raw_rows_lookup rows b hb kr.1
      rw [hlook] at hchar
      by_cases hv : validRatios rows kr.1 = []
      · rw [if_pos hv] at hchar; cases hchar
      · rw [if_neg hv] at hchar
        have hqs : kr.2 = validRatios rows kr.1 := by
          injection hchar
        have hkey : (p.model_id, p.month) = kr.1 := by
          rw [← hpkr]
        constructor
        · rw [hkey]; exact hv
        · rw [hkey, ← hqs, ← hpkr]
  refine ⟨load_raw_rows_lookup, hB, ?_, ?_, ?_⟩
  · intro rows pts k h hv p hp hk
    exact (hB rows pts h p hp).1 (hk ▸ hv)
  · intro pre post row h
    unfold load_raw_csv load_raw_rows
    rw [List.foldlM_append, List.foldlM_append]
    cases List.foldlM naverRowStep [] pre with
    | none => rfl
    | some b =>
      rw [Option.bind_eq_bind, Option.some_bind]
      rw [List.foldlM_cons, naverRowStep_skip b row h]
      rw [Option.bind_eq_bind, Option.some_bind]
  · intro rows hgood
    unfold load_raw_rows
    suffices hh : ∀ b : NaverBucket, List.foldlM naverRowStep b rows ≠ none from hh []
    induction rows with
    | nil => intro b; simp
    | cons row rest ih =>
      intro b
      rw [List.foldlM_cons]
      cases hp : parseNaverRow row with
      | none => exact absurd hp (hgood row (by simp))
      | some o =>
        cases o with
        | none =>
          rw [naverRowStep_skip b row hp]
          rw [Option.bind_eq_bind, Option.some_bind]
          exact ih (fun r hr => hgood r (List.mem_cons_of_mem _ hr)) b
        | some kq =>
          rw [naverRowStep_datum b row kq.1 kq.2 (by simpa using hp)]
          rw [Option.bind_eq_bind, Option.some_bind]
          exact ih (fun r hr => hgood r (List.mem_cons_of_mem _ hr)) _

/-- C10 witness: a row with no model_id column is silently dropped. -/
theorem naver_mean_aggregation_spec_witness :
    load_raw_csv ([] ++ ⟨none, none, none⟩ :: []) = load_raw_csv ([] ++ []) :=
  naver_mean_aggregation_spec.2.2.2.1 [] [] ⟨none, none, none⟩ (by decide)

/-- C10 counterexample: a row with a valid model_id, a non-empty date of fewer
than 7 characters and a non-empty ratio aborts the whole run (returns no
points), while the claim says such a row is silently dropped (the run would
yield the empty point list, as the empty run does). -/
theorem naver_short_date_cex :
    load_raw_csv [⟨some "1", some "2023", some "5"⟩] = none ∧
    load_raw_csv [] = some [] := by
  decide

/-- C3 counterexample: the legacy loader stores NULL market_total_units and
adoption_rate for a plain 100-unit row, and the batch loader stores NULL
market_total_units for a zero-volume batch whose sum is 0. -/
theorem sales_market_total_cex :
    fnRowFact [⟨1, "현대", "쏘나타", none, none⟩] "현대" "2024-06-01"
        ⟨"1", "쏘나타", "100", ""⟩ =
      some ⟨1, "2024-06-01", 100, none, none, "DANAWA"⟩ ∧
    factForRow [⟨1, "현대", "쏘나타", none, none⟩] (fun x => x)
        [⟨"현대", "2024-06-01", 1, "쏘나타", 0, none⟩]
        ⟨"현대", "2024-06-01", 1, "쏘나타", 0, none⟩ =
      some ⟨1, "2024-06-01", 0, none, none, "DANAWA"⟩ := by
  decide

end DanawaETL
